import Mathlib

/-!
Shallow embedding of the analytics core of the ai-trading-bot repository.

Python floats are modelled as exact rationals (`ℚ`); Python's `None` /
`Optional` results are modelled as `Option ℚ`; Python dictionaries with the
fixed keys `label` and `score` are modelled as a `Decision` structure.
Each definition mirrors one function of the source, keeping its name.
-/

namespace TradingBot

/-- Embeds `calculate_trade_levels` from `src/ai_trading_bot.py` (lines 56-62):
`if action == "buy": return price*(1+tp_pct), price*(1-sl_pct)`;
`elif action == "sell": return price*(1-tp_pct), price*(1+sl_pct)`;
`return price, price`. -/
def calculate_trade_levels (price : ℚ) (action : String) (tp_pct sl_pct : ℚ) : ℚ × ℚ :=
  if action = "buy" then (price * (1 + tp_pct), price * (1 - sl_pct))
  else if action = "sell" then (price * (1 - tp_pct), price * (1 + sl_pct))
  else (price, price)

namespace Enhanced

/-- Embeds `calculate_trade_levels` from `src/ai_trading_bot_enhanced.py`
(lines 91-97); same formulas as the plain bot, with the action argument first. -/
def calculate_trade_levels (action : String) (price take_profit_pct stop_loss_pct : ℚ) : ℚ × ℚ :=
  if action = "buy" then (price * (1 + take_profit_pct), price * (1 - stop_loss_pct))
  else if action = "sell" then (price * (1 - take_profit_pct), price * (1 + stop_loss_pct))
  else (price, price)

/-- Embeds `calculate_moving_average` from `src/ai_trading_bot_enhanced.py`
(lines 49-51): `return sum(prices) / len(prices) if prices else 0.0`. -/
def calculate_moving_average (prices : List ℚ) : ℚ :=
  if prices ≠ [] then prices.sum / prices.length else 0

end Enhanced

/-- Embeds `calculate_moving_average` from `src/analysis_utils.py` (lines 11-20):
empty input returns `None`; fewer than `window` prices returns the mean of all
prices; otherwise the mean of the last `window` prices (`prices[-window:]`).
(For `window = 0` with a non-empty list the Python source raises
`ZeroDivisionError`; every claim about this function assumes `window > 0`.) -/
def calculate_moving_average (prices : List ℚ) (window : ℕ) : Option ℚ :=
  if prices = [] then none
  else if prices.length < window then some (prices.sum / prices.length)
  else some ((prices.drop (prices.length - window)).sum / window)

/-- The last `n` elements of a list (all of it when `n ≥ length`); used to state
the specification "arithmetic mean of the last `min(window, len(prices))`
elements". -/
def lastElems (l : List ℚ) (n : ℕ) : List ℚ :=
  l.drop (l.length - n)

/-- One iteration of the accumulation loop of `calculate_rsi`
(`src/analysis_utils.py` lines 33-38): a positive change is added to the gains
component, otherwise its negation is added to the losses component. -/
def accumGL (acc : ℚ × ℚ) (change : ℚ) : ℚ × ℚ :=
  if 0 < change then (acc.1 + change, acc.2) else (acc.1, acc.2 - change)

/-- The last `period + 1` prices: Python's negative indices
`prices[-period-1] .. prices[-1]` range exactly over this suffix. -/
def rsiWindow (prices : List ℚ) (period : ℕ) : List ℚ :=
  prices.drop (prices.length - (period + 1))

/-- The `period` consecutive changes `prices[i] - prices[i-1]` for
`i in range(-period, 0)`, in loop order. -/
def rsiDeltas (prices : List ℚ) (period : ℕ) : List ℚ :=
  List.zipWith (fun a b => a - b) (rsiWindow prices period).tail (rsiWindow prices period)

/-- The final `(gains, losses)` pair of the accumulation loop of
`calculate_rsi`, starting from `gains = losses = 0.0`. -/
def rsiGainLoss (prices : List ℚ) (period : ℕ) : ℚ × ℚ :=
  (rsiDeltas prices period).foldl accumGL (0, 0)

/-- `average_gain = gains / period` (`src/analysis_utils.py` line 40). -/
def rsiAverageGain (prices : List ℚ) (period : ℕ) : ℚ :=
  (rsiGainLoss prices period).1 / period

/-- `average_loss = losses / period if losses != 0 else 0.001`
(`src/analysis_utils.py` line 41). -/
def rsiAverageLoss (prices : List ℚ) (period : ℕ) : ℚ :=
  if (rsiGainLoss prices period).2 ≠ 0 then (rsiGainLoss prices period).2 / period
  else 1 / 1000

/-- Embeds `calculate_rsi` from `src/analysis_utils.py` (lines 23-44):
returns `None` when `len(prices) < period + 1`, otherwise
`100 - 100 / (1 + rs)` with `rs = average_gain / average_loss`. -/
def calculate_rsi (prices : List ℚ) (period : ℕ) : Option ℚ :=
  if prices.length < period + 1 then none
  else some (100 - 100 / (1 + rsiAverageGain prices period / rsiAverageLoss prices period))

/-! Reference (specification-side) definition of RSI, used only to compare
`calculate_rsi` against the spec's wording for claim C3. -/

/-- The deltas exactly as the spec words them: `price[i] - price[i-1]` for the
last `period` positions, indexing from the front
(`i = len - period + k` for `k = 0 .. period - 1`). -/
def specDeltas (prices : List ℚ) (period : ℕ) : List ℚ :=
  (List.range period).map fun k =>
    prices.getD (prices.length - period + k) 0 - prices.getD (prices.length - period + k - 1) 0

/-- Spec wording: "sum positive deltas into gains". -/
def specGains (deltas : List ℚ) : ℚ :=
  (deltas.filter (fun c => decide (0 < c))).sum

/-- Spec wording: "sum absolute values of negative-or-zero deltas into losses". -/
def specLosses (deltas : List ℚ) : ℚ :=
  ((deltas.filter (fun c => decide (c ≤ 0))).map (fun c => |c|)).sum

/-- RSI as the spec's reference definition words it (claim C3): average gain and
average loss over the last `period` deltas, the average loss replaced by `0.001`
when it is exactly zero, then `rs = average_gain / average_loss` and
`rsi = 100 - 100/(1 + rs)`. -/
def rsi_spec (prices : List ℚ) (period : ℕ) : Option ℚ :=
  if prices.length < period + 1 then none
  else
    let deltas := specDeltas prices period
    let average_gain := specGains deltas / period
    let average_loss₀ := specLosses deltas / period
    let average_loss := if average_loss₀ = 0 then 1 / 1000 else average_loss₀
    some (100 - 100 / (1 + average_gain / average_loss))

/-! DecisionAdapter: `analyze_text_with_model` from `src/model_utils.py`. -/

/-- The dictionary `{"label": ..., "score": ...}` returned by
`analyze_text_with_model`. -/
structure Decision where
  label : String
  score : ℚ
deriving DecidableEq, Repr

/-- The default neutral signal `{"label": "hold", "score": 0.0}`. -/
def defaultDecision : Decision := ⟨"hold", 0⟩

/-- Outcome of the upstream scoring call, as far as `analyze_text_with_model`
distinguishes it: `failure` covers a request exception, a non-2xx status or an
unparseable body (all caught by the `except` clause); `success data` is a
parsed JSON body whose `"data"` field is absent (`none`) or present. -/
inductive UpstreamOutcome where
  | failure : UpstreamOutcome
  | success : Option Decision → UpstreamOutcome
deriving DecidableEq, Repr

/-- Embeds `analyze_text_with_model` from `src/model_utils.py` (lines 11-61).
The environment-variable resolution is I/O and is abstracted: `model_api_url`
and `model_api_key` here are the values after that resolution (`none` models an
unset variable). Python's `if not model_api_url or not model_api_key` treats
both `None` and the empty string as unconfigured. On a successful response the
source returns `result.get("data", {"label": "hold", "score": 0.0})` verbatim. -/
def analyze_text_with_model (model_api_url model_api_key : Option String)
    (outcome : UpstreamOutcome) : Decision :=
  if model_api_url.getD "" = "" ∨ model_api_key.getD "" = "" then defaultDecision
  else
    match outcome with
    | .failure => defaultDecision
    | .success data => data.getD defaultDecision

end TradingBot

namespace TradingBot

theorem length_lastElems (l : List ℚ) (n : ℕ) :
    (lastElems l n).length = min n l.length := by
  simp [lastElems]
  omega

/-- Claim C1: for label `"buy"` both `calculate_trade_levels` functions return
`(price*(1+tp), price*(1-sl))`; for `"sell"` they return
`(price*(1-tp), price*(1+sl))`; for `"hold"` or any other label they return
`(price, price)`. -/
theorem trade_levels_by_label (price tp sl : ℚ) (label : String) :
    (label = "buy" →
      calculate_trade_levels price label tp sl = (price * (1 + tp), price * (1 - sl)) ∧
      Enhanced.calculate_trade_levels label price tp sl = (price * (1 + tp), price * (1 - sl))) ∧
    (label = "sell" →
      calculate_trade_levels price label tp sl = (price * (1 - tp), price * (1 + sl)) ∧
      Enhanced.calculate_trade_levels label price tp sl = (price * (1 - tp), price * (1 + sl))) ∧
    (label ≠ "buy" → label ≠ "sell" →
      calculate_trade_levels price label tp sl = (price, price) ∧
      Enhanced.calculate_trade_levels label price tp sl = (price, price)) := by
  refine ⟨fun h => ?_, fun h => ?_, fun h h2 => ?_⟩ <;>
    simp [calculate_trade_levels, Enhanced.calculate_trade_levels, h, *]

/-- Witness for C1 at concrete inputs: the `"hold"` branch at price 100
collapses both levels to the price. -/
theorem trade_levels_by_label_witness :
    calculate_trade_levels 100 "hold" (5/100) (2/100) = (100, 100) ∧
    Enhanced.calculate_trade_levels "hold" 100 (5/100) (2/100) = (100, 100) :=
  (trade_levels_by_label 100 (5/100) (2/100) "hold").2.2 (by decide) (by decide)

/-- Claim C2: on a non-empty price list and positive window, the moving average is
the arithmetic mean of the last `min window prices.length` elements. -/
theorem moving_average_is_mean_of_last (prices : List ℚ) (window : ℕ)
    (hne : prices ≠ []) (hw : 0 < window) :
    (lastElems prices window).length = min window prices.length ∧
    calculate_moving_average prices window =
      some ((lastElems prices window).sum / ((lastElems prices window).length : ℚ)) := by
  refine ⟨length_lastElems prices window, ?_⟩
  rw [calculate_moving_average, if_neg hne, length_lastElems]
  by_cases hlt : prices.length < window
  · rw [if_pos hlt]
    have hmin : min window prices.length = prices.length := by omega
    have hdrop : prices.length - window = 0 := by omega
    simp [lastElems, hdrop, hmin]
  · rw [if_neg hlt]
    have hmin : min window prices.length = window := by omega
    simp [lastElems, hmin]

/-- Witness for C2 at `prices = [1, 2, 3]`, `window = 2`: the result is the
mean `5/2` of the last two elements. -/
theorem moving_average_is_mean_of_last_witness :
    (lastElems [1, 2, 3] 2).length = min 2 ([1, 2, 3] : List ℚ).length ∧
    calculate_moving_average [1, 2, 3] 2 =
      some ((lastElems [1, 2, 3] 2).sum / ((lastElems [1, 2, 3] 2).length : ℚ)) :=
  moving_average_is_mean_of_last [1, 2, 3] 2 (by simp) (by norm_num)

/-- Counterexample for C5: the enhanced bot's `calculate_moving_average`,
applied to the empty price sequence, returns the numeric value `0.0` rather
than an absent result — the insufficient-data case is zero-filled there. -/
theorem enhanced_moving_average_empty_is_zero :
    Enhanced.calculate_moving_average [] = 0 := by
  simp [Enhanced.calculate_moving_average]

/-- Claim C5 as amended: `calculate_moving_average` in `analysis_utils` returns an
absent result (`none`) on the empty sequence for every window, while the
enhanced bot's windowless `calculate_moving_average` returns `0.0` on the
empty sequence. -/
theorem moving_average_empty (window : ℕ) :
    calculate_moving_average [] window = none ∧
    Enhanced.calculate_moving_average [] = 0 := by
  constructor
  · simp [calculate_moving_average]
  · simp [Enhanced.calculate_moving_average]

/-- Claim C7: whenever the API URL or key is unconfigured (`None` or empty), the
request fails, or the parsed response has no `"data"` field,
`analyze_text_with_model` returns exactly the default `{hold, 0.0}`; being a
total function, it propagates no error. -/
theorem analyze_text_default_on_failure (url key : Option String)
    (outcome : UpstreamOutcome)
    (h : url.getD "" = "" ∨ key.getD "" = "" ∨ outcome = .failure ∨
      outcome = .success none) :
    analyze_text_with_model url key outcome = defaultDecision := by
  unfold analyze_text_with_model
  rcases h with h | h | h | h
  · rw [if_pos (Or.inl h)]
  · rw [if_pos (Or.inr h)]
  · subst h
    by_cases hc : url.getD "" = "" ∨ key.getD "" = ""
    · rw [if_pos hc]
    · rw [if_neg hc]
  · subst h
    by_cases hc : url.getD "" = "" ∨ key.getD "" = ""
    · rw [if_pos hc]
    · rw [if_neg hc]
      rfl

/-- Witness for C7: with no URL and no key configured and a failed request,
the result is the default decision. -/
theorem analyze_text_default_on_failure_witness :
    analyze_text_with_model none none .failure = defaultDecision :=
  analyze_text_default_on_failure none none .failure (Or.inl rfl)

/-- Counterexample for C8: with URL and key configured and an upstream
response whose `"data"` field is `{label: "moon", score: 7.5}`, the function
returns that dictionary verbatim — the label is outside `{buy, sell, hold}`
and the score is outside `[0, 1]`, so no normalization happens. -/
theorem analyze_text_no_normalization :
    analyze_text_with_model (some "u") (some "k")
      (.success (some ⟨"moon", 15/2⟩)) = ⟨"moon", 15/2⟩ ∧
    ("moon" ≠ "buy" ∧ "moon" ≠ "sell" ∧ "moon" ≠ "hold") ∧
    ¬ ((15 : ℚ)/2 ≤ 1) := by
  refine ⟨by simp [analyze_text_with_model], by decide, by norm_num⟩

/-- Claim C8 as amended: when the URL and key are configured and the response
carries a `"data"` field, `analyze_text_with_model` returns that field
unchanged — it neither validates the label against `{buy, sell, hold}` nor
clamps the score to `[0, 1]`; the fallback `{hold, 0.0}` is returned only
when unconfigured, on request failure, or when `"data"` is absent. -/
theorem analyze_text_passthrough (url key : Option String) (d : Decision)
    (hu : url.getD "" ≠ "") (hk : key.getD "" ≠ "") :
    analyze_text_with_model url key (.success (some d)) = d := by
  unfold analyze_text_with_model
  rw [if_neg (by tauto)]
  rfl

/-- Witness for C8's amended claim: a configured call passes the upstream
decision `{buy, 1}` through unchanged. -/
theorem analyze_text_passthrough_witness :
    analyze_text_with_model (some "u") (some "k")
      (.success (some ⟨"buy", 1⟩)) = ⟨"buy", 1⟩ :=
  analyze_text_passthrough (some "u") (some "k") ⟨"buy", 1⟩ (by decide) (by decide)

/-- Counterexample for C9: at the non-positive price `-1`, both
`calculate_trade_levels` functions silently return defined numeric levels
computed by the `"buy"` formulas, instead of reporting an error or an
undefined result. -/
theorem trade_levels_negative_price_computed :
    calculate_trade_levels (-1) "buy" (2/100) (1/100) = (-(51/50), -(99/100)) ∧
    Enhanced.calculate_trade_levels "buy" (-1) (2/100) (1/100) = (-(51/50), -(99/100)) := by
  constructor <;>
    · simp [calculate_trade_levels, Enhanced.calculate_trade_levels]
      norm_num

/-- Claim C9 as amended: neither `calculate_trade_levels` validates its price:
for every price `≤ 0` the levels are computed by exactly the same label
formulas as for a positive price — a non-positive price is an unchecked
precondition, never rejected. -/
theorem trade_levels_no_price_validation (price tp sl : ℚ) (hp : price ≤ 0) :
    calculate_trade_levels price "buy" tp sl = (price * (1 + tp), price * (1 - sl)) ∧
    Enhanced.calculate_trade_levels "buy" price tp sl = (price * (1 + tp), price * (1 - sl)) ∧
    calculate_trade_levels price "sell" tp sl = (price * (1 - tp), price * (1 + sl)) ∧
    Enhanced.calculate_trade_levels "sell" price tp sl = (price * (1 - tp), price * (1 + sl)) := by
  refine ⟨?_, ?_, ?_, ?_⟩ <;> simp [calculate_trade_levels, Enhanced.calculate_trade_levels]

/-- Witness for C9's amended claim at price `-1`. -/
theorem trade_levels_no_price_validation_witness :
    calculate_trade_levels (-1) "buy" (1/10) (1/20) = ((-1) * (1 + 1/10), (-1) * (1 - 1/20)) ∧
    Enhanced.calculate_trade_levels "buy" (-1) (1/10) (1/20) = ((-1) * (1 + 1/10), (-1) * (1 - 1/20)) ∧
    calculate_trade_levels (-1) "sell" (1/10) (1/20) = ((-1) * (1 - 1/10), (-1) * (1 + 1/20)) ∧
    Enhanced.calculate_trade_levels "sell" (-1) (1/10) (1/20) = ((-1) * (1 - 1/10), (-1) * (1 + 1/20)) :=
  trade_levels_no_price_validation (-1) (1/10) (1/20) (by norm_num)

end TradingBot

namespace TradingBot

theorem foldl_accumGL (ds : List ℚ) : ∀ g l : ℚ,
    ds.foldl accumGL (g, l) = (g + specGains ds, l + specLosses ds) := by
  induction ds with
  | nil => intro g l; simp [specGains, specLosses]
  | cons d ds ih =>
    intro g l
    by_cases hd : 0 < d
    · have hstep : accumGL (g, l) d = (g + d, l) := by simp [accumGL, hd]
      have hg : specGains (d :: ds) = d + specGains ds := by
        simp [specGains, List.filter_cons, hd]
      have hl : specLosses (d :: ds) = specLosses ds := by
        simp [specLosses, List.filter_cons, not_le.mpr hd]
      rw [List.foldl_cons, hstep, ih, hg, hl]
      ring_nf
    · have hstep : accumGL (g, l) d = (g, l - d) := by simp [accumGL, hd]
      have hd' : d ≤ 0 := not_lt.mp hd
      have hg : specGains (d :: ds) = specGains ds := by
        simp [specGains, List.filter_cons, hd]
      have hl : specLosses (d :: ds) = |d| + specLosses ds := by
        simp [specLosses, List.filter_cons, hd']
      rw [List.foldl_cons, hstep, ih, hg, hl, abs_of_nonpos hd']
      ring_nf
  
theorem specGains_nonneg (ds : List ℚ) : 0 ≤ specGains ds := by
  refine List.sum_nonneg ?_
  intro x hx
  simp [List.mem_filter] at hx
  exact hx.2.le

theorem specLosses_nonneg (ds : List ℚ) : 0 ≤ specLosses ds := by
  refine List.sum_nonneg ?_
  intro x hx
  simp [specLosses, List.mem_map, List.mem_filter] at hx
  obtain ⟨c, _, rfl⟩ := hx
  exact abs_nonneg c

theorem rsiGainLoss_eq (prices : List ℚ) (period : ℕ) :
    rsiGainLoss prices period =
      (specGains (rsiDeltas prices period), specLosses (rsiDeltas prices period)) := by
  rw [rsiGainLoss, foldl_accumGL]
  simp

theorem rsiGainLoss_fst_nonneg (prices : List ℚ) (period : ℕ) :
    0 ≤ (rsiGainLoss prices period).1 := by
  rw [rsiGainLoss_eq]
  exact specGains_nonneg _

theorem rsiGainLoss_snd_nonneg (prices : List ℚ) (period : ℕ) :
    0 ≤ (rsiGainLoss prices period).2 := by
  rw [rsiGainLoss_eq]
  exact specLosses_nonneg _

theorem rsiAverageGain_nonneg (prices : List ℚ) (period : ℕ) :
    0 ≤ rsiAverageGain prices period :=
  div_nonneg (rsiGainLoss_fst_nonneg prices period) (Nat.cast_nonneg period)

theorem rsiAverageLoss_pos (prices : List ℚ) (period : ℕ) (hp : 0 < period) :
    0 < rsiAverageLoss prices period := by
  rw [rsiAverageLoss]
  by_cases h : (rsiGainLoss prices period).2 ≠ 0
  · rw [if_pos h]
    exact div_pos (lt_of_le_of_ne (rsiGainLoss_snd_nonneg prices period) (Ne.symm h))
      (by exact_mod_cast hp)
  · rw [if_neg h]
    norm_num

/-- Claim C10: `calculate_rsi` is total and never divides by zero for a positive
period: both divisors (`period` and `average_loss`) are nonzero — the latter
because a zero loss sum is replaced by `0.001` — so the function always
returns either `none` (insufficient data) or a numeric value. -/
theorem rsi_division_safe (prices : List ℚ) (period : ℕ) (hp : 0 < period) :
    ((period : ℚ) ≠ 0 ∧ rsiAverageLoss prices period ≠ 0) ∧
    (prices.length < period + 1 ∧ calculate_rsi prices period = none ∨
      ∃ r, calculate_rsi prices period = some r) := by
  refine ⟨⟨by exact_mod_cast hp.ne', (rsiAverageLoss_pos prices period hp).ne'⟩, ?_⟩
  by_cases h : prices.length < period + 1
  · exact Or.inl ⟨h, by rw [calculate_rsi, if_pos h]⟩
  · exact Or.inr ⟨_, by rw [calculate_rsi, if_neg h]⟩

/-- Witness for C10 at `prices = [5]`, `period = 1` (insufficient data, so the
`none` branch is taken while the loss divisor is still nonzero). -/
theorem rsi_division_safe_witness :
    (((1 : ℕ) : ℚ) ≠ 0 ∧ rsiAverageLoss [5] 1 ≠ 0) ∧
    (([5] : List ℚ).length < 1 + 1 ∧ calculate_rsi [5] 1 = none ∨
      ∃ r, calculate_rsi [5] 1 = some r) :=
  rsi_division_safe [5] 1 (by norm_num)

/-- Claim C6: for a positive period, `calculate_rsi` returns `none` exactly when
`len(prices) < period + 1`, and a numeric value whenever
`len(prices) ≥ period + 1`. -/
theorem rsi_defined_iff (prices : List ℚ) (period : ℕ) (hp : 0 < period) :
    (calculate_rsi prices period = none ↔ prices.length < period + 1) ∧
    (period + 1 ≤ prices.length → ∃ r, calculate_rsi prices period = some r) := by
  constructor
  · constructor
    · intro h
      by_contra hc
      rw [calculate_rsi, if_neg hc] at h
      exact Option.some_ne_none _ h
    · intro h
      rw [calculate_rsi, if_pos h]
  · intro h
    exact ⟨_, by rw [calculate_rsi, if_neg (not_lt.mpr h)]⟩

/-- Witness for C6 at `prices = [1, 2]`, `period = 1`. -/
theorem rsi_defined_iff_witness :
    (calculate_rsi [1, 2] 1 = none ↔ ([1, 2] : List ℚ).length < 1 + 1) ∧
    (1 + 1 ≤ ([1, 2] : List ℚ).length → ∃ r, calculate_rsi [1, 2] 1 = some r) :=
  rsi_defined_iff [1, 2] 1 (by norm_num)

/-- Counterexample for C4: at `prices = [2, 1]`, `period = 1` (a strictly
falling window, so the gain sum is zero), the RSI is defined and equals
exactly `0`, violating the strict lower bound `0 < rsi`. -/
theorem rsi_zero_counterexample :
    0 < 1 ∧ calculate_rsi [2, 1] 1 = some 0 ∧ ¬ (0 < (0 : ℚ)) := by
  refine ⟨Nat.one_pos, ?_, lt_irrefl 0⟩
  simp [calculate_rsi, rsiAverageGain, rsiAverageLoss, rsiGainLoss, rsiDeltas, rsiWindow, accumGL]

/-- Claim C4 as amended: every defined RSI value lies in `[0, 100)` — the upper
bound is strict, the lower bound is attained (when no window delta is
positive, as the counterexample shows). -/
theorem rsi_range (prices : List ℚ) (period : ℕ) (r : ℚ) (hp : 0 < period)
    (h : calculate_rsi prices period = some r) : 0 ≤ r ∧ r < 100 := by
  rw [calculate_rsi] at h
  by_cases hl : prices.length < period + 1
  · rw [if_pos hl] at h
    exact absurd h (by simp)
  · rw [if_neg hl] at h
    have hr := (Option.some_injective ℚ h).symm
    have hG : 0 ≤ rsiAverageGain prices period := rsiAverageGain_nonneg prices period
    have hL : 0 < rsiAverageLoss prices period := rsiAverageLoss_pos prices period hp
    have hrs : 0 ≤ rsiAverageGain prices period / rsiAverageLoss prices period :=
      div_nonneg hG hL.le
    have h1 : (0 : ℚ) < 1 + rsiAverageGain prices period / rsiAverageLoss prices period := by
      linarith
    have hpos : 0 < 100 / (1 + rsiAverageGain prices period / rsiAverageLoss prices period) :=
      div_pos (by norm_num) h1
    have hle : 100 / (1 + rsiAverageGain prices period / rsiAverageLoss prices period) ≤ 100 :=
      div_le_self (by norm_num) (by linarith)
    constructor
    · rw [hr]; linarith
    · rw [hr]; linarith

/-- Witness for C4's amended claim at `prices = [1, 2]`, `period = 1`, whose
RSI is `100000/1001`. -/
theorem rsi_range_witness : 0 ≤ (100000 / 1001 : ℚ) ∧ (100000 / 1001 : ℚ) < 100 :=
  rsi_range [1, 2] 1 (100000 / 1001) Nat.one_pos (by
    simp [calculate_rsi, rsiAverageGain, rsiAverageLoss, rsiGainLoss, rsiDeltas, rsiWindow, accumGL]
    norm_num)

end TradingBot

namespace TradingBot

theorem specDeltas_eq_rsiDeltas (prices : List ℚ) (period : ℕ)
    (hlen : period + 1 ≤ prices.length) :
    specDeltas prices period = rsiDeltas prices period := by
  have hW : (rsiWindow prices period).length = period + 1 := by
    simp [rsiWindow]
    omega
  have hlen1 : (specDeltas prices period).length = period := by simp [specDeltas]
  have hlen2 : (rsiDeltas prices period).length = period := by
    simp [rsiDeltas, List.length_zipWith, List.length_tail, hW]
  refine List.ext_getElem (by rw [hlen1, hlen2]) ?_
  intro i h1 h2
  have hi : i < period := by rwa [hlen1] at h1
  simp only [specDeltas, List.getElem_map, List.getElem_range]
  rw [List.getD_eq_getElem _ _ (by omega), List.getD_eq_getElem _ _ (by omega)]
  simp only [rsiDeltas, List.getElem_zipWith, List.getElem_tail, rsiWindow, List.getElem_drop]
  have e1 : prices.length - (period + 1) + (i + 1) = prices.length - period + i := by omega
  have e2 : prices.length - (period + 1) + i = prices.length - period + i - 1 := by omega
  simp only [e1, e2]

/-- Claim C3: for a positive period and sufficient data, `calculate_rsi` agrees with
the spec's reference definition: sum positive deltas into gains, absolute
values of non-positive deltas into losses, average both over the period,
substitute `0.001` when the average loss is exactly zero, and return
`100 - 100/(1 + rs)` with `rs = average_gain / average_loss`. -/
theorem rsi_matches_reference (prices : List ℚ) (period : ℕ) (hp : 0 < period)
    (hlen : period + 1 ≤ prices.length) :
    calculate_rsi prices period = rsi_spec prices period := by
  rw [calculate_rsi, rsi_spec, if_neg (not_lt.mpr hlen), if_neg (not_lt.mpr hlen)]
  simp only [specDeltas_eq_rsiDeltas prices period hlen]
  have hgl := rsiGainLoss_eq prices period
  rw [rsiAverageGain, rsiAverageLoss, hgl]
  have hper : ((period : ℕ) : ℚ) ≠ 0 := by exact_mod_cast hp.ne'
  by_cases h0 : specLosses (rsiDeltas prices period) = 0
  · simp [h0, hper]
  · have hdiv : specLosses (rsiDeltas prices period) / (period : ℚ) ≠ 0 :=
      div_ne_zero h0 hper
    simp [h0, hdiv]

/-- Witness for C3 at `prices = [1, 2]`, `period = 1`: both sides compute the
same (defined) RSI. -/
theorem rsi_matches_reference_witness :
    calculate_rsi [1, 2] 1 = rsi_spec [1, 2] 1 :=
  rsi_matches_reference [1, 2] 1 Nat.one_pos (by decide)

end TradingBot
